import Mathlib

/-!
Shallow embedding of `src/main.rs` of `packet_processor`: a raw-frame
capture loop with a fixed-window, per-source rate limiter.

The embedding follows the source line by line:
* the per-source counts (`HashMap<String, u32>`, line 81) become an
  association list `CountMap` with `u32` values embedded as `Nat` reduced
  modulo `2^32` (release-profile wrapping arithmetic for `*count += 1`);
* the window timestamp (`Instant`, line 86) becomes a `Nat`; `elapsed()`
  becomes truncated subtraction `now - start` (an `Instant` is monotone,
  so `now ≥ start` on every real execution and truncation is exact);
* the body of the capture-loop iteration (lines 106-131) becomes the pure
  transition `record`, and the loop arms (lines 99-137) become `loopStep`.
-/

namespace PacketProc

/-- Modulus of Rust's `u32`: per-source counts live in `HashMap<String, u32>`
(src/main.rs line 81) and are incremented with wrapping `u32` arithmetic. -/
def U32 : Nat := 4294967296

/-- `window_duration`: `Duration::from_secs(10)` (src/main.rs line 116),
measured in seconds. -/
def windowDuration : Nat := 10

/-- `threshold`: the literal `100` in `if *count > 100` (src/main.rs line 126). -/
def threshold : Nat := 100

/-- The rate-limit key: the canonical string form of the frame's source
address (`ethernet.get_source().to_string()`, src/main.rs line 108). -/
abbrev SourceKey := String

/-- The count mapping `HashMap<String, u32>` embedded as an association
list with unique keys (hash order is irrelevant to the source's logic). -/
abbrev CountMap := List (SourceKey × Nat)

/-- Reading a source's count; a missing key reads as `0`, mirroring
`counts.entry(source).or_insert(0)` which inserts `0` before the increment. -/
def getCount : CountMap → SourceKey → Nat
  | [], _ => 0
  | (k, c) :: rest, s => if k = s then c else getCount rest s

/-- `let count = counts.entry(source.clone()).or_insert(0); *count += 1;`
(src/main.rs lines 122-123): insert `0` when the key is absent, then
increment with wrapping `u32` arithmetic. -/
def incrCount : CountMap → SourceKey → CountMap
  | [], s => [(s, (0 + 1) % U32)]
  | (k, c) :: rest, s =>
    if k = s then (k, (c + 1) % U32) :: rest else (k, c) :: incrCount rest s

/-- The `RateWindow` state: the count mapping behind `packet_counts`
(src/main.rs line 81) and the window-start timestamp behind `last_reset`
(src/main.rs line 86). -/
structure RateWindow where
  counts : CountMap
  start : Nat
  deriving DecidableEq

/-- The engine's classification of one frame (src/main.rs lines 126-131):
`Exceeded` prints the rate-limiting line, `Allowed` the normal line; both
carry the post-increment count. -/
inductive Verdict where
  | Allowed (count : Nat)
  | Exceeded (count : Nat)
  deriving DecidableEq

/-- One `record(source, now)` call: the body of src/main.rs lines 111-131.
If `now - start ≥ 10 s` the mapping is cleared and the window restarts at
`now` (lines 116-119); then the source's count is incremented (lines
122-123) and the verdict compares the post-increment count with the
threshold (line 126). The state is the same on both verdict branches. -/
def record (source : SourceKey) (now : Nat) (st : RateWindow) : Verdict × RateWindow :=
  let st1 := if windowDuration ≤ now - st.start then RateWindow.mk [] now else st
  let counts1 := incrCount st1.counts source
  let count := getCount counts1 source
  ((if threshold < count then Verdict.Exceeded count else Verdict.Allowed count),
   RateWindow.mk counts1 st1.start)

/-- The same transition written in the `Except` error monad, with every
source operation embedded at its own step. None of the operations in
src/main.rs lines 111-131 has a failing case in the single-threaded
release build being modelled (the two `lock().unwrap()` calls can only
panic on a poisoned mutex, which needs a prior panic; `HashMap::clear`,
`entry`/`or_insert` and the wrapping `u32` increment are total), so no
`Except.error` is ever produced. -/
def recordE (source : SourceKey) (now : Nat) (st : RateWindow) :
    Except String (Verdict × RateWindow) := do
  let st1 := if windowDuration ≤ now - st.start then RateWindow.mk [] now else st
  let counts1 := incrCount st1.counts source
  let count := getCount counts1 source
  if threshold < count then
    pure (Verdict.Exceeded count, RateWindow.mk counts1 st1.start)
  else
    pure (Verdict.Allowed count, RateWindow.mk counts1 st1.start)

/-- `n` consecutive `record` calls for the same source at the same
timestamp, returning the final state. -/
def iterRecord (source : SourceKey) (now : Nat) (st : RateWindow) : Nat → RateWindow
  | 0 => st
  | n + 1 => (record source now (iterRecord source now st n)).2

/-- A sequence of `record` calls, each a `(source, timestamp)` pair,
folded over the state. -/
def runCalls (calls : List (SourceKey × Nat)) (st : RateWindow) : RateWindow :=
  calls.foldl (fun s c => (record c.1 c.2 s).2) st

/-- The number of calls in a sequence made for a given source. -/
def callsFor (s : SourceKey) : List (SourceKey × Nat) → Nat
  | [] => 0
  | c :: rest => (if c.1 = s then 1 else 0) + callsFor s rest

/-- A network interface as the selection logic reads it: `iface.name`,
`iface.is_up()`, `iface.is_loopback()` (src/main.rs lines 42-49). -/
structure NetworkInterface where
  name : String
  is_up : Bool
  is_loopback : Bool
  deriving DecidableEq

/-- The `ByName` predicate of src/main.rs line 45:
`iface.name == name && iface.is_up() && !iface.is_loopback()`. -/
def suitable (nm : String) (i : NetworkInterface) : Bool :=
  i.name == nm && i.is_up && !i.is_loopback

/-- The startup failure when no interface qualifies: the
`expect("Interface ... not found or not suitable")` panic of
src/main.rs line 49, named as in the spec's error taxonomy. -/
inductive SelectError where
  | NoInterfaceFound
  deriving DecidableEq

/-- Interface selection by exact name (src/main.rs lines 42-49):
`interfaces.into_iter().find(|iface| ...)`, with `None` escalated to the
fatal `NoInterfaceFound` error. -/
def selectByName (nm : String) (interfaces : List NetworkInterface) :
    Except SelectError NetworkInterface :=
  match interfaces.find? (fun i => suitable nm i) with
  | some i => Except.ok i
  | none => Except.error SelectError.NoInterfaceFound

/-- `EthernetPacket::minimum_packet_size()`: 6 destination bytes +
6 source bytes + 2 EtherType bytes. -/
def minEthernetSize : Nat := 14

/-- The decoded view of a frame: only the source address field is read by
the program (src/main.rs line 108). -/
structure EthernetFrame where
  sourceBytes : List Nat
  deriving DecidableEq

/-- `EthernetPacket::new(packet)` (src/main.rs line 106): `none` when the
buffer is shorter than the minimum Ethernet header, otherwise a view whose
source field is bytes 6..12 of the buffer. -/
def ethernetNew (buf : List Nat) : Option EthernetFrame :=
  if buf.length < minEthernetSize then none
  else some (EthernetFrame.mk ((buf.drop 6).take 6))

/-- One lowercase hexadecimal digit, as in `MacAddr`'s `Display`. -/
def hexDigit (n : Nat) : Char :=
  if n < 10 then Char.ofNat (48 + n) else Char.ofNat (87 + n)

/-- One byte rendered as two lowercase hex digits (`format "02x"`). -/
def byteToHex (b : Nat) : String :=
  String.mk [hexDigit (b / 16 % 16), hexDigit (b % 16)]

/-- `ethernet.get_source().to_string()` (src/main.rs line 108): the MAC
address rendered as colon-separated lowercase hexadecimal. -/
def macToString (bytes : List Nat) : String :=
  String.intercalate ":" (bytes.map byteToHex)

/-- The body of the `Ok(packet)` arm (src/main.rs lines 101-132): decode,
and when a frame parses, record it and emit exactly one stdout line; when
decoding fails, do nothing. Returns the new state and the stdout lines. -/
def iterationOnPacket (buf : List Nat) (now : Nat) (st : RateWindow) :
    RateWindow × List String :=
  match ethernetNew buf with
  | none => (st, [])
  | some eth =>
    let source := macToString eth.sourceBytes
    let r := record source now st
    match r.1 with
    | Verdict.Exceeded c =>
      (r.2, ["Rate limiting exceeded for " ++ source ++ ": " ++ toString c ++ " packets"])
    | Verdict.Allowed c =>
      (r.2, ["Packet from " ++ source ++ ": total " ++ toString c])

/-- The result of one `rx.next()` call (src/main.rs line 99). -/
inductive RecvResult where
  | ok (bytes : List Nat)
  | err (msg : String)
  deriving DecidableEq

/-- The capture loop's control state: `Running` while the `loop` keeps
iterating, `Terminated` after the `break` of src/main.rs line 136. -/
inductive LoopStatus where
  | Running
  | Terminated
  deriving DecidableEq

/-- Everything one loop iteration produces: the next control state, the
rate-limiter state, and the stdout/stderr lines it printed. -/
structure StepResult where
  status : LoopStatus
  window : RateWindow
  stdoutLines : List String
  stderrLines : List String
  deriving DecidableEq

/-- One iteration of the capture loop (src/main.rs lines 95-139): a
successful receive runs the packet body and stays `Running`; a receive
error prints one stderr line and breaks the loop. -/
def loopStep (r : RecvResult) (now : Nat) (st : RateWindow) : StepResult :=
  match r with
  | RecvResult.ok bytes =>
    let p := iterationOnPacket bytes now st
    StepResult.mk LoopStatus.Running p.1 p.2 []
  | RecvResult.err e =>
    StepResult.mk LoopStatus.Terminated st [] ["Error receiving packet: " ++ e]

theorem U32_pos : 0 < U32 := by norm_num [U32]

theorem getCount_incrCount_self (m : CountMap) (s : SourceKey) :
    getCount (incrCount m s) s = (getCount m s + 1) % U32 := by
  induction m with
  | nil => simp [incrCount, getCount]
  | cons head rest ih =>
    obtain ⟨k, c⟩ := head
    by_cases hk : k = s
    · subst hk
      simp [incrCount, getCount]
    · simp [incrCount, getCount, hk, ih]

theorem getCount_incrCount_other (m : CountMap) (s s2 : SourceKey) (h : s2 ≠ s) :
    getCount (incrCount m s) s2 = getCount m s2 := by
  have hss : s ≠ s2 := Ne.symm h
  induction m with
  | nil => simp [incrCount, getCount, hss]
  | cons head rest ih =>
    obtain ⟨k, c⟩ := head
    by_cases hk : k = s
    · subst hk
      simp [incrCount, getCount, hss]
    · by_cases hk2 : k = s2 <;> simp [incrCount, getCount, hk, hk2, ih, h]

theorem record_noReset (src : SourceKey) (now : Nat) (st : RateWindow)
    (h : now - st.start < windowDuration) :
    record src now st =
      ((if threshold < (getCount st.counts src + 1) % U32
        then Verdict.Exceeded ((getCount st.counts src + 1) % U32)
        else Verdict.Allowed ((getCount st.counts src + 1) % U32)),
       RateWindow.mk (incrCount st.counts src) st.start) := by
  have h2 : ¬ (windowDuration ≤ now - st.start) := Nat.not_le.mpr h
  simp [record, h2, getCount_incrCount_self]

theorem record_reset (src : SourceKey) (now : Nat) (st : RateWindow)
    (h : windowDuration ≤ now - st.start) :
    record src now st = (Verdict.Allowed 1, RateWindow.mk [(src, 1)] now) := by
  have h1 : (0 + 1) % U32 = 1 := by norm_num [U32]
  have h3 : ¬ (threshold < 1) := by norm_num [threshold]
  simp [record, h, incrCount, getCount, h1, h3]

theorem iterRecord_spec (src : SourceKey) (now t0 : Nat)
    (h : now - t0 < windowDuration) (n : Nat) :
    (iterRecord src now (RateWindow.mk [] t0) n).start = t0 ∧
    getCount (iterRecord src now (RateWindow.mk [] t0) n).counts src = n % U32 := by
  induction n with
  | zero => exact ⟨rfl, by simp [iterRecord, getCount]⟩
  | succ n ih =>
    obtain ⟨hs, hc⟩ := ih
    have hnr : now - (iterRecord src now (RateWindow.mk [] t0) n).start < windowDuration := by
      rw [hs]; exact h
    have h2 : iterRecord src now (RateWindow.mk [] t0) (n + 1)
        = RateWindow.mk
            (incrCount (iterRecord src now (RateWindow.mk [] t0) n).counts src)
            (iterRecord src now (RateWindow.mk [] t0) n).start := by
      show (record src now (iterRecord src now (RateWindow.mk [] t0) n)).2 = _
      rw [record_noReset _ _ _ hnr]
    rw [h2]
    constructor
    · exact hs
    · show getCount (incrCount (iterRecord src now (RateWindow.mk [] t0) n).counts src) src
          = (n + 1) % U32
      rw [getCount_incrCount_self, hc, Nat.mod_add_mod]

theorem runCalls_cons (c : SourceKey × Nat) (calls : List (SourceKey × Nat))
    (st : RateWindow) :
    runCalls (c :: calls) st = runCalls calls (record c.1 c.2 st).2 := rfl

theorem runCalls_spec (calls : List (SourceKey × Nat)) (st : RateWindow)
    (hwf : ∀ s, getCount st.counts s < U32)
    (h : ∀ c ∈ calls, c.2 - st.start < windowDuration) :
    (runCalls calls st).start = st.start ∧
    ∀ s, getCount (runCalls calls st).counts s
        = (getCount st.counts s + callsFor s calls) % U32 := by
  induction calls generalizing st with
  | nil =>
    refine ⟨rfl, fun s => ?_⟩
    show getCount st.counts s = (getCount st.counts s + callsFor s []) % U32
    simp [callsFor, Nat.mod_eq_of_lt (hwf s)]
  | cons c rest ih =>
    have hc : c.2 - st.start < windowDuration := h c (List.mem_cons_self c rest)
    have hst2 : (record c.1 c.2 st).2
        = RateWindow.mk (incrCount st.counts c.1) st.start := by
      rw [record_noReset c.1 c.2 st hc]
    have hwf2 : ∀ s, getCount (record c.1 c.2 st).2.counts s < U32 := by
      intro s
      rw [hst2]
      by_cases hs : s = c.1
      · subst hs
        show getCount (incrCount st.counts c.1) c.1 < U32
        rw [getCount_incrCount_self]
        exact Nat.mod_lt _ U32_pos
      · show getCount (incrCount st.counts c.1) s < U32
        rw [getCount_incrCount_other _ _ _ hs]
        exact hwf s
    have h2 : ∀ c2 ∈ rest, c2.2 - (record c.1 c.2 st).2.start < windowDuration := by
      intro c2 hc2
      rw [hst2]
      exact h c2 (List.mem_cons_of_mem c hc2)
    obtain ⟨hstart, hcount⟩ := ih (record c.1 c.2 st).2 hwf2 h2
    rw [runCalls_cons]
    constructor
    · rw [hstart, hst2]
    · intro s
      rw [hcount s, hst2]
      by_cases hs : s = c.1
      · subst hs
        show (getCount (incrCount st.counts c.1) c.1 + callsFor c.1 rest) % U32 = _
        rw [getCount_incrCount_self, Nat.mod_add_mod]
        have hcf : callsFor c.1 (c :: rest) = 1 + callsFor c.1 rest := by
          simp [callsFor]
        rw [hcf, Nat.add_assoc]
      · show (getCount (incrCount st.counts c.1) s + callsFor s rest) % U32 = _
        rw [getCount_incrCount_other _ _ _ hs]
        have hcf : callsFor s (c :: rest) = callsFor s rest := by
          have : ¬ (c.1 = s) := fun hcc => hs hcc.symm
          simp [callsFor, this]
        rw [hcf]

theorem verdict_at_call (src : SourceKey) (now t0 : Nat)
    (h : now - t0 < windowDuration) (n : Nat) :
    (record src now (iterRecord src now (RateWindow.mk [] t0) n)).1
      = (if threshold < (n % U32 + 1) % U32
         then Verdict.Exceeded ((n % U32 + 1) % U32)
         else Verdict.Allowed ((n % U32 + 1) % U32)) := by
  obtain ⟨hs, hc⟩ := iterRecord_spec src now t0 h n
  have hnr : now - (iterRecord src now (RateWindow.mk [] t0) n).start < windowDuration := by
    rw [hs]; exact h
  rw [record_noReset _ _ _ hnr, hc]

theorem allowed_first_calls (src : SourceKey) (now t0 : Nat)
    (h : now - t0 < windowDuration) (k : Nat) (hk : k < threshold) :
    (record src now (iterRecord src now (RateWindow.mk [] t0) k)).1
      = Verdict.Allowed (k + 1) := by
  have ht : threshold = 100 := rfl
  have hU : U32 = 4294967296 := rfl
  have hk1 : k % U32 = k := Nat.mod_eq_of_lt (by omega)
  have hk2 : (k + 1) % U32 = k + 1 := Nat.mod_eq_of_lt (by omega)
  rw [verdict_at_call src now t0 h k, hk1, hk2, if_neg (by omega)]

theorem exceeded_at_call (src : SourceKey) (now t0 : Nat)
    (h : now - t0 < windowDuration) (k : Nat) (hk : threshold ≤ k) (hk2 : k + 1 < U32) :
    (record src now (iterRecord src now (RateWindow.mk [] t0) k)).1
      = Verdict.Exceeded (k + 1) := by
  have ht : threshold = 100 := rfl
  have hU : U32 = 4294967296 := rfl
  have hk1 : k % U32 = k := Nat.mod_eq_of_lt (by omega)
  have hk3 : (k + 1) % U32 = k + 1 := Nat.mod_eq_of_lt hk2
  rw [verdict_at_call src now t0 h k, hk1, hk3, if_pos (by omega)]

theorem record_at_wrap (src : SourceKey) (now t0 : Nat)
    (h : now - t0 < windowDuration) :
    (record src now (iterRecord src now (RateWindow.mk [] t0) (U32 - 1))).1
      = Verdict.Allowed 0 := by
  have hU : U32 = 4294967296 := rfl
  have ht : threshold = 100 := rfl
  have h1 : (U32 - 1) % U32 = U32 - 1 := Nat.mod_eq_of_lt (by omega)
  have h2 : (U32 - 1 + 1) % U32 = 0 := by
    have he : U32 - 1 + 1 = U32 := by omega
    rw [he, Nat.mod_self]
  rw [verdict_at_call src now t0 h (U32 - 1), h1, h2, if_neg (by omega)]

theorem record_before_wrap (src : SourceKey) (now t0 : Nat)
    (h : now - t0 < windowDuration) :
    (record src now (iterRecord src now (RateWindow.mk [] t0) (U32 - 2))).1
      = Verdict.Exceeded (U32 - 1) := by
  have hU : U32 = 4294967296 := rfl
  have ht : threshold = 100 := rfl
  have h1 : (U32 - 2) % U32 = U32 - 2 := Nat.mod_eq_of_lt (by omega)
  have h2 : (U32 - 2 + 1) % U32 = U32 - 1 := by
    have he : U32 - 2 + 1 = U32 - 1 := by omega
    rw [he]
    exact Nat.mod_eq_of_lt (by omega)
  rw [verdict_at_call src now t0 h (U32 - 2), h1, h2, if_pos (by omega)]

theorem selectByName_cons_pos (nm : String) (a : NetworkInterface)
    (rest : List NetworkInterface) (ha : suitable nm a = true) :
    selectByName nm (a :: rest) = Except.ok a := by
  simp [selectByName, List.find?_cons_of_pos _ ha]

theorem selectByName_cons_neg (nm : String) (a : NetworkInterface)
    (rest : List NetworkInterface) (ha : suitable nm a = false) :
    selectByName nm (a :: rest) = selectByName nm rest := by
  have hna : ¬ (suitable nm a = true) := by simp [ha]
  simp [selectByName, List.find?_cons_of_neg _ hna]

theorem selectByName_ok_first (nm : String) (l : List NetworkInterface)
    (i : NetworkInterface) (h : selectByName nm l = Except.ok i) :
    suitable nm i = true ∧
    ∃ pre post, l = pre ++ i :: post ∧ ∀ j ∈ pre, suitable nm j = false := by
  induction l with
  | nil => simp [selectByName, List.find?] at h
  | cons a rest ih =>
    by_cases ha : suitable nm a = true
    · rw [selectByName_cons_pos nm a rest ha] at h
      have hai : a = i := by simpa using h
      subst hai
      exact ⟨ha, [], rest, rfl, by simp⟩
    · have ha2 : suitable nm a = false := by simpa using ha
      rw [selectByName_cons_neg nm a rest ha2] at h
      obtain ⟨hsuit, pre, post, hl, hpre⟩ := ih h
      refine ⟨hsuit, a :: pre, post, by rw [hl]; rfl, ?_⟩
      intro j hj
      rcases List.mem_cons.mp hj with hj1 | hj2
      · rw [hj1]; exact ha2
      · exact hpre j hj2

theorem selectByName_none_iff (nm : String) (l : List NetworkInterface) :
    selectByName nm l = Except.error SelectError.NoInterfaceFound ↔
      ∀ i ∈ l, suitable nm i = false := by
  induction l with
  | nil => simp [selectByName, List.find?]
  | cons a rest ih =>
    by_cases ha : suitable nm a = true
    · rw [selectByName_cons_pos nm a rest ha]
      simp [ha]
    · have ha2 : suitable nm a = false := by simpa using ha
      rw [selectByName_cons_neg nm a rest ha2]
      simp [ha2, ih]

/-- C1: within one window the verdict carries the per-source running count
and classifies it against the threshold. As stated over all call
sequences the claim fails at the `u32` wrap: starting from a fresh window
at time `0`, after `2^32 - 1` calls for source `a`, the `2^32`-th call
(timestamp `0`, strictly inside the window) returns `Allowed` carrying
count `0`, while the number of `record` calls made for `a` is
`2^32 ≠ 0`. -/
theorem C1_counterexample :
    (record "a" 0 (iterRecord "a" 0 (RateWindow.mk [] 0) (U32 - 1))).1
        = Verdict.Allowed 0 ∧
    U32 - 1 + 1 ≠ 0 := by
  constructor
  · exact record_at_wrap "a" 0 0 (by norm_num [windowDuration])
  · norm_num [U32]

/-- C1 (amended): for every sequence of `record` calls whose timestamps
all fall strictly within one window, the count carried for a given source
equals the number of calls for that source reduced modulo `2^32` (so it
equals the call count whenever fewer than `2^32` calls were made); every
call returns `Allowed` when the post-increment count is at most the
threshold and `Exceeded` when it strictly exceeds it; and 101 frames from
`AA:BB:CC:DD:EE:FF` within one window give `Allowed` on the first 100
calls and `Exceeded` with count 101 on the 101st. -/
theorem C1_theorem :
    (∀ calls t0, (∀ c ∈ calls, c.2 - t0 < windowDuration) →
        ∀ s, getCount (runCalls calls (RateWindow.mk [] t0)).counts s
            = callsFor s calls % U32) ∧
    (∀ src now st, (record src now st).1
        = (if threshold < getCount (record src now st).2.counts src
           then Verdict.Exceeded (getCount (record src now st).2.counts src)
           else Verdict.Allowed (getCount (record src now st).2.counts src))) ∧
    (∀ k, k < 100 →
        (record "AA:BB:CC:DD:EE:FF" 0
          (iterRecord "AA:BB:CC:DD:EE:FF" 0 (RateWindow.mk [] 0) k)).1
          = Verdict.Allowed (k + 1)) ∧
    (record "AA:BB:CC:DD:EE:FF" 0
      (iterRecord "AA:BB:CC:DD:EE:FF" 0 (RateWindow.mk [] 0) 100)).1
      = Verdict.Exceeded 101 := by
  refine ⟨?_, ?_, ?_, ?_⟩
  · intro calls t0 hcalls s
    have hwf : ∀ s2, getCount (RateWindow.mk ([] : CountMap) t0).counts s2 < U32 :=
      fun s2 => U32_pos
    have hres := (runCalls_spec calls (RateWindow.mk [] t0) hwf hcalls).2 s
    rw [hres]
    show (0 + callsFor s calls) % U32 = callsFor s calls % U32
    rw [Nat.zero_add]
  · intro src now st
    rfl
  · intro k hk
    have hkt : k < threshold := hk
    exact allowed_first_calls "AA:BB:CC:DD:EE:FF" 0 0 (by norm_num [windowDuration]) k hkt
  · have h := exceeded_at_call "AA:BB:CC:DD:EE:FF" 0 0
      (by norm_num [windowDuration]) 100 (by norm_num [threshold]) (by norm_num [U32])
    simpa using h

/-- C1 witness: a concrete three-call sequence inside one window; the
count for source `a` equals the number of calls for `a` modulo `2^32`. -/
theorem C1_witness :
    (∀ c ∈ [("a", 0), ("b", 1), ("a", 2)], c.2 - 0 < windowDuration) ∧
    getCount (runCalls [("a", 0), ("b", 1), ("a", 2)] (RateWindow.mk [] 0)).counts "a"
      = callsFor "a" [("a", 0), ("b", 1), ("a", 2)] % U32 :=
  ⟨by decide, C1_theorem.1 [("a", 0), ("b", 1), ("a", 2)] 0 (by decide) "a"⟩

/-- C2: when `now - window.start ≥ window_duration`, `record` replaces the
count mapping with an empty one, sets the window start to `now`, and then
increments, so the call returns `Allowed` with count 1 regardless of the
pre-reset state; in particular 5 calls for `X`, then one call past the
window duration, returns `Allowed` with count 1 (not 6). -/
theorem C2_theorem :
    (∀ src now st, windowDuration ≤ now - st.start →
        record src now st = (Verdict.Allowed 1, RateWindow.mk [(src, 1)] now)) ∧
    (record "X" 10 (iterRecord "X" 0 (RateWindow.mk [] 0) 5)).1 = Verdict.Allowed 1 :=
  ⟨fun src now st h => record_reset src now st h, by decide⟩

/-- C2 witness: a concrete reset call on a state with pre-reset count 5. -/
theorem C2_witness :
    windowDuration ≤ 10 - (RateWindow.mk [("X", 5)] 0).start ∧
    record "X" 10 (RateWindow.mk [("X", 5)] 0)
      = (Verdict.Allowed 1, RateWindow.mk [("X", 1)] 10) :=
  ⟨by decide, C2_theorem.1 "X" 10 (RateWindow.mk [("X", 5)] 0) (by decide)⟩

/-- C4: `ByName` selection returns the first interface whose name matches
exactly and which is up and not loopback; it fails with
`NoInterfaceFound` exactly when no interface in the list satisfies all
three conditions; and the two `eth0` fixture lookups behave as stated. -/
theorem C4_theorem :
    (∀ nm l i, selectByName nm l = Except.ok i →
        suitable nm i = true ∧
        ∃ pre post, l = pre ++ i :: post ∧ ∀ j ∈ pre, suitable nm j = false) ∧
    (∀ nm l, selectByName nm l = Except.error SelectError.NoInterfaceFound ↔
        ∀ i ∈ l, suitable nm i = false) ∧
    selectByName "eth0" [NetworkInterface.mk "eth0" true false]
      = Except.ok (NetworkInterface.mk "eth0" true false) ∧
    selectByName "eth0" [NetworkInterface.mk "eth0" false false]
      = Except.error SelectError.NoInterfaceFound := by
  refine ⟨?_, ?_, ?_, ?_⟩
  · intro nm l i h
    exact selectByName_ok_first nm l i h
  · intro nm l
    exact selectByName_none_iff nm l
  · rfl
  · rfl

/-- C4 witness: the fixture lookup applied through the theorem. -/
theorem C4_witness :
    selectByName "eth0" [NetworkInterface.mk "eth0" true false]
      = Except.ok (NetworkInterface.mk "eth0" true false) ∧
    suitable "eth0" (NetworkInterface.mk "eth0" true false) = true :=
  ⟨rfl, (C4_theorem.1 "eth0" [NetworkInterface.mk "eth0" true false]
      (NetworkInterface.mk "eth0" true false) rfl).1⟩

/-- C5: a received buffer shorter than the minimum Ethernet header size
decodes to `none`, and the loop iteration on it stays `Running`, emits no
stdout or stderr line, and leaves the `RateWindow` state unchanged. -/
theorem C5_theorem (buf : List Nat) (now : Nat) (st : RateWindow)
    (h : buf.length < minEthernetSize) :
    ethernetNew buf = none ∧
    loopStep (RecvResult.ok buf) now st
      = StepResult.mk LoopStatus.Running st [] [] := by
  have he : ethernetNew buf = none := by simp [ethernetNew, h]
  refine ⟨he, ?_⟩
  simp [loopStep, iterationOnPacket, he]

/-- C5 witness: a concrete 3-byte buffer leaves a concrete state intact. -/
theorem C5_witness :
    ([(1 : Nat), 2, 3].length < minEthernetSize) ∧
    ethernetNew [1, 2, 3] = none ∧
    loopStep (RecvResult.ok [1, 2, 3]) 4 (RateWindow.mk [("z", 9)] 2)
      = StepResult.mk LoopStatus.Running (RateWindow.mk [("z", 9)] 2) [] [] := by
  have h := C5_theorem [1, 2, 3] 4 (RateWindow.mk [("z", 9)] 2) (by decide)
  exact ⟨by decide, h.1, h.2⟩

/-- C6: `record` cannot fail: the same transition written in the `Except`
error monad, with every source operation embedded, always returns
`Except.ok` of the pure transition for every source key, timestamp and
state — there is no error or panic path. -/
theorem C6_theorem (src : SourceKey) (now : Nat) (st : RateWindow) :
    recordE src now st = Except.ok (record src now st) := by
  unfold recordE record
  by_cases hc : threshold <
      getCount (incrCount (if windowDuration ≤ now - st.start
        then RateWindow.mk [] now else st).counts src) src <;>
    simp [hc, pure, Except.pure]

/-- C7: as stated the claim fails at the `u32` wrap: within one window
(fresh window at time 0, all timestamps 0) the `2^32 - 1`-th call for
source `b` returns `Exceeded`, yet the very next call in the same window
returns `Allowed`, and the stored count decreases (from `2^32 - 1` to
`0`). -/
theorem C7_counterexample :
    (record "b" 0 (iterRecord "b" 0 (RateWindow.mk [] 0) (U32 - 2))).1
        = Verdict.Exceeded (U32 - 1) ∧
    (record "b" 0 (iterRecord "b" 0 (RateWindow.mk [] 0) (U32 - 1))).1
        = Verdict.Allowed 0 ∧
    getCount (iterRecord "b" 0 (RateWindow.mk [] 0) U32).counts "b"
        < getCount (iterRecord "b" 0 (RateWindow.mk [] 0) (U32 - 1)).counts "b" := by
  have hwin : (0 : Nat) - 0 < windowDuration := by norm_num [windowDuration]
  refine ⟨record_before_wrap "b" 0 0 hwin, record_at_wrap "b" 0 0 hwin, ?_⟩
  rw [(iterRecord_spec "b" 0 0 hwin U32).2, (iterRecord_spec "b" 0 0 hwin (U32 - 1)).2,
    Nat.mod_self, Nat.mod_eq_of_lt (by norm_num [U32])]
  norm_num [U32]

/-- C7 (amended): within one window, as long as the per-source count
stays below `2^32` (fewer than `2^32` calls for that source), a
non-resetting `record` call increments that source's count by exactly
one, leaves every other source's count unchanged, and once the count
strictly exceeds the threshold the next call for that source again
returns `Exceeded` — so severity is monotone non-decreasing below the
wrap. -/
theorem C7_theorem (src : SourceKey) (now : Nat) (st : RateWindow)
    (hwin : now - st.start < windowDuration)
    (hbound : getCount st.counts src + 1 < U32) :
    getCount (record src now st).2.counts src = getCount st.counts src + 1 ∧
    (∀ s2, s2 ≠ src → getCount (record src now st).2.counts s2 = getCount st.counts s2) ∧
    (threshold < getCount st.counts src →
        (record src now st).1 = Verdict.Exceeded (getCount st.counts src + 1)) := by
  have hrec := record_noReset src now st hwin
  have hmod : (getCount st.counts src + 1) % U32 = getCount st.counts src + 1 :=
    Nat.mod_eq_of_lt hbound
  refine ⟨?_, ?_, ?_⟩
  · rw [hrec]
    show getCount (incrCount st.counts src) src = _
    rw [getCount_incrCount_self, hmod]
  · intro s2 hs2
    rw [hrec]
    show getCount (incrCount st.counts src) s2 = _
    exact getCount_incrCount_other _ _ _ hs2
  · intro hex
    rw [hrec]
    show (if threshold < (getCount st.counts src + 1) % U32
          then Verdict.Exceeded ((getCount st.counts src + 1) % U32)
          else Verdict.Allowed ((getCount st.counts src + 1) % U32))
        = Verdict.Exceeded (getCount st.counts src + 1)
    rw [hmod, if_pos (Nat.lt_succ_of_lt hex)]

/-- C7 witness: a concrete over-threshold state below the wrap bound. -/
theorem C7_witness :
    ((3 : Nat) - (RateWindow.mk [("s", 101)] 0).start < windowDuration) ∧
    (getCount (RateWindow.mk [("s", 101)] 0).counts "s" + 1 < U32) ∧
    (threshold < getCount (RateWindow.mk [("s", 101)] 0).counts "s") ∧
    (record "s" 3 (RateWindow.mk [("s", 101)] 0)).1
      = Verdict.Exceeded (getCount (RateWindow.mk [("s", 101)] 0).counts "s" + 1) :=
  ⟨by decide, by decide, by decide,
   ( C7_theorem "s" 3 (RateWindow.mk [("s", 101)] 0) (by decide) (by decide)).2.2 (by decide)⟩

/-- C8: while the loop is `Running`, the only transition to `Terminated`
is a receive error: every successful receive keeps the loop `Running`
with no stderr output (whether or not the frame decodes), and a receive
error terminates the loop with exactly one stderr line. -/
theorem C8_theorem (now : Nat) (st : RateWindow) :
    (∀ bytes, (loopStep (RecvResult.ok bytes) now st).status = LoopStatus.Running ∧
        (loopStep (RecvResult.ok bytes) now st).stderrLines = []) ∧
    (∀ e, loopStep (RecvResult.err e) now st
        = StepResult.mk LoopStatus.Terminated st [] ["Error receiving packet: " ++ e]) :=
  ⟨fun _ => ⟨rfl, rfl⟩, fun _ => rfl⟩

/-- C9: a `record` call that does not trigger a reset leaves the
window-start timestamp unchanged and the count of every other source
unchanged. -/
theorem C9_theorem (src : SourceKey) (now : Nat) (st : RateWindow)
    (h : now - st.start < windowDuration) :
    (record src now st).2.start = st.start ∧
    ∀ s2, s2 ≠ src → getCount (record src now st).2.counts s2 = getCount st.counts s2 := by
  have hrec := record_noReset src now st h
  constructor
  · rw [hrec]
  · intro s2 hs2
    rw [hrec]
    show getCount (incrCount st.counts src) s2 = _
    exact getCount_incrCount_other _ _ _ hs2

/-- C9 witness: a concrete non-resetting call for `x` leaves `y`'s count
and the window start unchanged. -/
theorem C9_witness :
    ((4 : Nat) - (RateWindow.mk [("x", 2), ("y", 7)] 0).start < windowDuration) ∧
    ("y" : SourceKey) ≠ "x" ∧
    getCount (record "x" 4 (RateWindow.mk [("x", 2), ("y", 7)] 0)).2.counts "y"
      = getCount (RateWindow.mk [("x", 2), ("y", 7)] 0).counts "y" :=
  ⟨by decide, by decide,
   ( C9_theorem "x" 4 (RateWindow.mk [("x", 2), ("y", 7)] 0) (by decide)).2 "y" (by decide)⟩

/-- C10: per-source counts are `u32` values updated with wrapping
arithmetic: every stored count is below `2^32`; within one window the
count after `n` calls from a fresh window equals `n % 2^32` (so it equals
the true call count exactly while fewer than `2^32` calls occur); and at
the `2^32`-th call the count wraps to `0`, silently restarting the
`Allowed`/`Exceeded` classification (`Allowed` with count `0`). -/
theorem C10_theorem :
    (∀ src now st, getCount (record src now st).2.counts src < U32) ∧
    (∀ src now t0 n, now - t0 < windowDuration →
        getCount (iterRecord src now (RateWindow.mk [] t0) n).counts src = n % U32) ∧
    (∀ src now t0, now - t0 < windowDuration →
        getCount (iterRecord src now (RateWindow.mk [] t0) U32).counts src = 0 ∧
        (record src now (iterRecord src now (RateWindow.mk [] t0) (U32 - 1))).1
          = Verdict.Allowed 0) := by
  refine ⟨?_, ?_, ?_⟩
  · intro src now st
    show getCount (incrCount (if windowDuration ≤ now - st.start
        then RateWindow.mk [] now else st).counts src) src < U32
    rw [getCount_incrCount_self]
    exact Nat.mod_lt _ U32_pos
  · intro src now t0 n h
    exact (iterRecord_spec src now t0 h n).2
  · intro src now t0 h
    refine ⟨?_, record_at_wrap src now t0 h⟩
    rw [(iterRecord_spec src now t0 h U32).2, Nat.mod_self]

/-- C10 witness: three calls inside one window give count `3 % 2^32`. -/
theorem C10_witness :
    ((0 : Nat) - 0 < windowDuration) ∧
    getCount (iterRecord "m" 0 (RateWindow.mk [] 0) 3).counts "m" = 3 % U32 :=
  ⟨by decide, C10_theorem.2.1 "m" 0 0 3 (by decide)⟩

end PacketProc
